import Mathlib

/-!
Verification of the triage automation pipeline (src/triage_automation.py).

The pure classification-resolution-and-decision pipeline is embedded
shallowly:

* Python `dict`s over strings become association lists (`List (String × String)`)
  with `dictGet`/`dictInsert` mirroring `d.get`/`d[k] = v` (overwrite keeps the
  original position, as CPython does).
* Python string truthiness (`if s:` on an `Optional[str]`) becomes `truthyOpt`.
* `str.lower()` becomes `lowerStr` (ASCII case folding; every string the
  pipeline case-folds for routing is ASCII).
* `json.loads` is an external library call; it is modelled as a parse oracle
  `String → ParseOutcome` passed to the interpreter: `.failure` is
  `json.JSONDecodeError`, `.ok fields` a parsed object whose four relevant
  fields may each be absent (`none` mirrors `dict.get` returning the default).
* The external collaborators of `process_issues` (the classifier call, the
  Linear mutations) are modelled by a `Config` of total functions and an
  effect trace: each API call the per-item loop makes is recorded as an
  `Effect`.  The trace models the success path of the `try` block.
* `a in b` on Python strings is substring containment, `List.IsInfix` on the
  character lists.
-/

namespace Triage

/-- Python `s.lower()`, on the character list (ASCII case folding, which covers
every string the pipeline case-folds). -/
def lowerStr (s : String) : String := String.mk (s.data.map Char.toLower)

/-- Python `s.strip()`: drop leading and trailing whitespace. -/
def trimStr (s : String) : String :=
  String.mk (((s.data.dropWhile Char.isWhitespace).reverse.dropWhile Char.isWhitespace).reverse)

/-- Python `s.startswith(pre)`. -/
def startsWithStr (s pre : String) : Bool := pre.data.isPrefixOf s.data

/-- Python `s[n:]` (drop the first `n` characters). -/
def dropChars (s : String) (n : Nat) : String := String.mk (s.data.drop n)

/-- Python string truthiness of an `Optional[str]`: `None` and `""` are falsy. -/
def truthyOpt (o : Option String) : Bool := (o.getD "") != ""

/-- `d.get(k)` on a Python string-keyed dict, as an association list lookup. -/
def dictGet (d : List (String × String)) (k : String) : Option String :=
  (d.find? (fun p => p.1 == k)).map (fun p => p.2)

/-- `d[k] = v` on a Python dict: overwrite in place if the key exists, else append. -/
def dictInsert (d : List (String × String)) (k v : String) : List (String × String) :=
  if d.any (fun p => p.1 == k) then d.map (fun p => if p.1 == k then (k, v) else p)
  else d ++ [(k, v)]

/-- Python `pat in s` for strings: contiguous substring containment. -/
def containsSub (s pat : String) : Bool := decide (pat.data <:+: s.data)

/-- One CSV row as `csv.DictReader` hands it to `load_bucket_mapping`:
the `Name`, `Owner` and `Note` columns, each possibly missing (`row.get`). -/
structure Row where
  name : Option String
  owner : Option String
  note : Option String
deriving DecidableEq

/-- `row.get("Name", "").strip()` of a row. -/
def rowName (r : Row) : String := trimStr (r.name.getD "")

/-- `row.get("Owner", "").strip()` of a row. -/
def rowOwner (r : Row) : String := trimStr (r.owner.getD "")

/-- `load_bucket_mapping` (triage_automation.py lines 41-54): fold the rows,
keeping `mapping[name.lower()] = owner` for every row with a non-empty
(stripped) name and owner.  The function is total: it returns whatever
mapping the usable rows produce, empty included. -/
def loadStep (mapping : List (String × String)) (r : Row) : List (String × String) :=
  let name := rowName r
  let owner := rowOwner r
  if name != "" && owner != "" then dictInsert mapping (lowerStr name) owner
  else mapping

/-- `load_bucket_mapping`, the fold over the rows with `loadStep`. -/
def load_bucket_mapping (rows : List Row) : List (String × String) :=
  rows.foldl loadStep []

/-- `OWNER_NAME_MAP` (lines 76-80): CSV spellings to Linear display names.
The Linear names carry the source file's exact (mojibake) characters. -/
def OWNER_NAME_MAP : List (String × String) :=
  [("Vladimir Krska", "VladimÃ­r KriÅ¡ka"),
   ("Zuzana Bednarova", "Zuzana BednÃ¡Å™ovÃ¡"),
   ("Jiri Zavora", "JiÅ™Ã­ ZÃ¡vora")]

/-- `FEATURE_OWNER_OVERRIDES` (lines 83-85): feature keyword to owner. -/
def FEATURE_OWNER_OVERRIDES : List (String × String) :=
  [("native datatypes", "Zuzana Bednarova")]

/-- `NEEDS_REVIEW_LABEL` (line 88). -/
def NEEDS_REVIEW_LABEL : String := "needs-review"

/-- `normalize_owner_name` (lines 91-93): `OWNER_NAME_MAP.get(name, name)`. -/
def normalize_owner_name (name : String) : String :=
  (dictGet OWNER_NAME_MAP name).getD name

/-- `ClassificationResult` (lines 378-384). -/
structure ClassificationResult where
  primary_bucket : String
  secondary_bucket : Option String
  confidence : String
  reasoning : String
deriving DecidableEq

/-- The four fields `classify_issue` reads off the parsed JSON object, each
`none` when the model omitted it (`result.get`). -/
structure RawFields where
  primary_bucket : Option String
  secondary_bucket : Option String
  confidence : Option String
  reasoning : Option String
deriving DecidableEq

/-- Outcome of `json.loads` on the (fence-stripped) response text:
`failure` is `json.JSONDecodeError`. -/
inductive ParseOutcome where
  | failure
  | ok (fields : RawFields)
deriving DecidableEq

/-- Characters up to (excluding) the next triple-backtick fence, or all of
them when no fence follows. -/
def upToFence : List Char → List Char
  | [] => []
  | c :: cs => if ("```".data).isPrefixOf (c :: cs) then [] else c :: upToFence cs

/-- Markdown fence stripping (lines 445-448): if the response starts with
three backticks, keep `response_text.split("```")[1]` — for a text that starts
with the delimiter this is what stands between the end of the leading fence
and the next fence (or the end) — then drop a leading `json` language tag
(four characters). -/
def stripFences (s : String) : String :=
  if startsWithStr s "```" then
    let t := String.mk (upToFence (s.data.drop 3))
    if startsWithStr t "json" then dropChars t 4 else t
  else s

/-- Primary-bucket validation (lines 464-469): first catalog name matching
case-insensitively replaces the model's primary bucket; no match leaves it. -/
def validate_primary (bucket_names : List String) (primary : String) : String :=
  match bucket_names.find? (fun name => lowerStr name == lowerStr primary) with
  | some name => name
  | none => primary

/-- Confidence reconciliation (lines 471-477): when a (truthy) secondary
bucket is present and the confidence is the string "low", and both buckets
map to the same non-empty owner, upgrade to "high"; otherwise pass the
confidence through unchanged. -/
def reconcile_confidence (bucket_mapping : List (String × String))
    (primary : String) (secondary : Option String) (confidence : String) : String :=
  if truthyOpt secondary && confidence == "low" then
    let primary_owner := (dictGet bucket_mapping (lowerStr primary)).getD ""
    let secondary_owner := (dictGet bucket_mapping (lowerStr (secondary.getD ""))).getD ""
    if primary_owner != "" && secondary_owner != "" && primary_owner == secondary_owner then
      "high"
    else confidence
  else confidence

/-- The interpretation half of `classify_issue` (lines 440-484): strip fences,
parse; on parse failure degrade to a low-confidence result carrying the whole
text as primary bucket; on success default the missing fields
(primary to "UX", confidence to "low", reasoning to ""), validate the primary
bucket against the catalog names and reconcile the confidence. -/
def interpret_response (parse : String → ParseOutcome) (response_text : String)
    (bucket_names : List String) (bucket_mapping : List (String × String)) :
    ClassificationResult :=
  let text := stripFences response_text
  match parse text with
  | .failure =>
    { primary_bucket := text, secondary_bucket := none, confidence := "low",
      reasoning := "Failed to parse AI response" }
  | .ok fields =>
    let primary0 := fields.primary_bucket.getD "UX"
    let secondary := fields.secondary_bucket
    let confidence0 := fields.confidence.getD "low"
    let reasoning := fields.reasoning.getD ""
    let primary := validate_primary bucket_names primary0
    let confidence := reconcile_confidence bucket_mapping primary secondary confidence0
    { primary_bucket := primary, secondary_bucket := secondary,
      confidence := confidence, reasoning := reasoning }

/-- A Linear team member as `get_team_members` returns one. -/
structure Member where
  id : String
  name : String
  email : String
deriving DecidableEq

/-- The `assignee` object of an issue (`id` and `name`). -/
structure Assignee where
  id : String
  name : String
deriving DecidableEq

/-- A Linear issue as the per-item loop of `process_issues` reads it. -/
structure Issue where
  id : String
  identifier : String
  title : String
  description : Option String
  assignee : Option Assignee
  labels : List String
deriving DecidableEq

/-- The `member_lookup` entries one member contributes (lines 507-513): its
lowercased display name, plus the lowercased CSV spelling for every
`OWNER_NAME_MAP` pair whose Linear name it carries. -/
def memberEntries (member : Member) : List (String × Member) :=
  (lowerStr member.name, member) ::
    OWNER_NAME_MAP.filterMap
      (fun p => if member.name == p.2 then some (lowerStr p.1, member) else none)

/-- `member_lookup` (lines 507-513) as an association list; members processed
later stand in front, so a duplicate key resolves to the latest write, as in a
Python dict. -/
def buildMemberLookup (team_members : List Member) : List (String × Member) :=
  team_members.foldl (fun d member => memberEntries member ++ d) []

/-- `member_lookup.get(k)`. -/
def memberGet (d : List (String × Member)) (k : String) : Option Member :=
  (d.find? (fun p => p.1 == k)).map (fun p => p.2)

/-- Owner resolution (lines 550-561): the first feature override whose keyword
is a substring of the lowercased title wins; otherwise the catalog owner of the
lowercased classified bucket.  Truthiness mirrors `if not owner_name:`. -/
def resolve_owner (bucket_mapping : List (String × String)) (title bucket : String) :
    Option String :=
  let title_lower := lowerStr title
  let override :=
    (FEATURE_OWNER_OVERRIDES.find? (fun p => containsSub title_lower p.1)).map (fun p => p.2)
  if truthyOpt override then override else dictGet bucket_mapping (lowerStr bucket)

/-- `bucket_names = list(set(bucket_mapping.keys()))` (line 504), determinized
to first-occurrence order. -/
def bucket_names_of (bucket_mapping : List (String × String)) : List String :=
  (bucket_mapping.map Prod.fst).dedup

/-- The audit comment lines (lines 598-607): fixed labels, fixed order, the
alternative-bucket line present exactly when the secondary bucket is truthy. -/
def comment_parts (bucket member_name : String) (c : ClassificationResult) :
    List String :=
  ["**Auto-triage classification**",
   "",
   "- **Bucket:** " ++ bucket,
   "- **Assigned to:** " ++ member_name,
   "- **Confidence:** " ++ c.confidence]
  ++ (if truthyOpt c.secondary_bucket then
        ["- **Alternative bucket:** " ++ c.secondary_bucket.getD ""]
      else [])
  ++ ["- **Reasoning:** " ++ c.reasoning]

/-- `comment_body = "\n".join(comment_parts)` (line 608). -/
def comment_body (bucket member_name : String) (c : ClassificationResult) : String :=
  String.intercalate "\n" (comment_parts bucket member_name c)

/-- One per-item result dict of `process_issues`; keys the code leaves out of a
given dict are `none`. -/
structure ResultRecord where
  identifier : String
  title : String
  action : String
  bucket : Option String
  owner : Option String
  confidence : Option String
  reason : Option String
deriving DecidableEq

/-- One external API call the per-item loop makes: the classification request,
and the three tracker mutations (`get_or_create_label`, `assign_issue`,
`add_comment`). -/
inductive Effect where
  | classifyCall (identifier : String)
  | getOrCreateLabel (team_id label_name : String)
  | assignIssue (issue_id member_id : String) (label_ids : Option (List String))
  | addComment (issue_id body : String)
deriving DecidableEq

/-- A tracker mutation: every effect except the classification request. -/
def isMutationEffect : Effect → Bool
  | .classifyCall _ => false
  | _ => true

/-- The `get_or_create_label` effect. -/
def isLabelEffect : Effect → Bool
  | .getOrCreateLabel _ _ => true
  | _ => false

/-- The run's external collaborators and inputs, as total functions on the
success path: `parse` is `json.loads`, `modelResponse` the classifier's raw
text for an issue, `labelIdFromTracker` the identifier
`linear.get_or_create_label` returns. -/
structure Config where
  parse : String → ParseOutcome
  modelResponse : Issue → String
  bucket_mapping : List (String × String)
  team_members : List Member
  team_id : String
  labelIdFromTracker : String
  dry_run : Bool

/-- The needs-review label acquisition inside the `try` block (lines 629-633):
memoized in `needs_review_label_id`; the tracker is asked only when the label
is needed and the memo is still empty. -/
def labelStep (cfg : Config) (memo : Option String) (add_needs_review : Bool) :
    Option (List String) × List Effect × Option String :=
  if add_needs_review then
    match memo with
    | some label_id => (some [label_id], [], some label_id)
    | none =>
      (some [cfg.labelIdFromTracker],
       [Effect.getOrCreateLabel cfg.team_id NEEDS_REVIEW_LABEL],
       some cfg.labelIdFromTracker)
  else (none, [], memo)

/-- One iteration of the `process_issues` loop (lines 518-660): the produced
result dict, the API calls made, and the updated label memo.  Skip when
assigned; classify; resolve the owner (override first); report an error when
no owner or no roster member; otherwise preview (dry run) or assign, label and
comment (execute, success path). -/
def process_one (cfg : Config) (memo : Option String) (issue : Issue) :
    ResultRecord × List Effect × Option String :=
  match issue.assignee with
  | some current_assignee =>
    ({ identifier := issue.identifier, title := issue.title, action := "skipped",
       bucket := none, owner := none, confidence := none,
       reason := some ("Already assigned to " ++ current_assignee.name) },
     [], memo)
  | none =>
    let classification :=
      interpret_response cfg.parse (cfg.modelResponse issue)
        (bucket_names_of cfg.bucket_mapping) cfg.bucket_mapping
    let bucket := classification.primary_bucket
    let owner_opt := resolve_owner cfg.bucket_mapping issue.title bucket
    if truthyOpt owner_opt = false then
      ({ identifier := issue.identifier, title := issue.title, action := "error",
         bucket := some bucket, owner := none, confidence := none,
         reason := some ("No owner found for bucket '" ++ bucket ++ "'") },
       [Effect.classifyCall issue.identifier], memo)
    else
      let owner_name := owner_opt.getD ""
      let lookup := buildMemberLookup cfg.team_members
      let member_opt :=
        (memberGet lookup (lowerStr owner_name)).orElse
          (fun _ => memberGet lookup (lowerStr (normalize_owner_name owner_name)))
      match member_opt with
      | none =>
        ({ identifier := issue.identifier, title := issue.title, action := "error",
           bucket := some bucket, owner := some owner_name, confidence := none,
           reason := some ("Owner '" ++ owner_name ++ "' not found in Linear team") },
         [Effect.classifyCall issue.identifier], memo)
      | some member =>
        let add_needs_review := classification.confidence == "low"
        let body := comment_body bucket member.name classification
        if cfg.dry_run then
          ({ identifier := issue.identifier, title := issue.title,
             action := "would_assign", bucket := some bucket,
             owner := some member.name, confidence := some classification.confidence,
             reason := none },
           [Effect.classifyCall issue.identifier], memo)
        else
          let step := labelStep cfg memo add_needs_review
          ({ identifier := issue.identifier, title := issue.title,
             action := "assigned", bucket := some bucket,
             owner := some member.name, confidence := some classification.confidence,
             reason := none },
           Effect.classifyCall issue.identifier ::
             (step.2.1 ++ [Effect.assignIssue issue.id member.id step.1,
                           Effect.addComment issue.id body]),
           step.2.2)

/-- The `process_issues` loop from a given label memo: result dicts in order
and the concatenated effect trace. -/
def runIssues (cfg : Config) : List Issue → Option String → List ResultRecord × List Effect
  | [], _ => ([], [])
  | issue :: rest, memo =>
    let step := process_one cfg memo issue
    let restRun := runIssues cfg rest step.2.2
    (step.1 :: restRun.1, step.2.1 ++ restRun.2)

/-- `process_issues` (lines 491-662): the label memo starts empty (line 516). -/
def process_issues (cfg : Config) (issues : List Issue) :
    List ResultRecord × List Effect :=
  runIssues cfg issues none

/-- Dry-run preview of an assignment: the same dict with `would_assign`. -/
def toWouldAssign (r : ResultRecord) : ResultRecord :=
  if r.action == "assigned" then
    { identifier := r.identifier, title := r.title, action := "would_assign",
      bucket := r.bucket, owner := r.owner, confidence := r.confidence,
      reason := r.reason }
  else r

/-- Split a character list at every newline (Python `s.split("\n")`,
the inverse of `"\n".join`). -/
def splitOnNl : List Char → List (List Char)
  | [] => [[]]
  | c :: cs =>
    match splitOnNl cs with
    | [] => [[]]
    | line :: rest => if c = '\n' then [] :: line :: rest else (c :: line) :: rest

/-- Strip an exact leading character sequence, or fail. -/
def stripPfx : List Char → List Char → Option (List Char)
  | [], l => some l
  | _ :: _, [] => none
  | p :: ps, c :: cs => if p = c then stripPfx ps cs else none

/-- A line-based parser for the audit comment: recover
(bucket, owner, confidence, alternative bucket, reasoning) from the lines of
`comment_body`, demanding the fixed header and the fixed labels in their
fixed order. -/
def parse_audit_lines (lines : List (List Char)) :
    Option (String × String × String × Option String × String) :=
  match lines with
  | [h0, h1, l1, l2, l3, l4] =>
    if h0 = "**Auto-triage classification**".data ∧ h1 = [] then
      match stripPfx "- **Bucket:** ".data l1, stripPfx "- **Assigned to:** ".data l2,
            stripPfx "- **Confidence:** ".data l3, stripPfx "- **Reasoning:** ".data l4 with
      | some b, some o, some c, some r =>
        some (String.mk b, String.mk o, String.mk c, none, String.mk r)
      | _, _, _, _ => none
    else none
  | [h0, h1, l1, l2, l3, l4, l5] =>
    if h0 = "**Auto-triage classification**".data ∧ h1 = [] then
      match stripPfx "- **Bucket:** ".data l1, stripPfx "- **Assigned to:** ".data l2,
            stripPfx "- **Confidence:** ".data l3, stripPfx "- **Alternative bucket:** ".data l4,
            stripPfx "- **Reasoning:** ".data l5 with
      | some b, some o, some c, some s, some r =>
        some (String.mk b, String.mk o, String.mk c, some (String.mk s), String.mk r)
      | _, _, _, _, _ => none
    else none
  | _ => none

/-- The audit-comment parser on the comment text. -/
def parse_audit (s : String) :
    Option (String × String × String × Option String × String) :=
  parse_audit_lines (splitOnNl s.data)

/-! ## Theorems -/

theorem loadStep_unusable (m : List (String × String)) (r : Row)
    (h : rowName r = "" ∨ rowOwner r = "") : loadStep m r = m := by
  rcases h with h | h <;> simp [loadStep, h]

theorem load_foldl_unusable (rows : List Row) :
    ∀ m : List (String × String), (∀ r ∈ rows, rowName r = "" ∨ rowOwner r = "") →
      rows.foldl loadStep m = m := by
  induction rows with
  | nil => intro m _; rfl
  | cons r rest ih =>
    intro m h
    rw [List.foldl_cons, loadStep_unusable m r (h r (List.mem_cons_self r rest))]
    exact ih m (fun x hx => h x (List.mem_cons_of_mem r hx))

/-- C3 (counterexample): a readable source with one row whose name is present
but whose owner is blank has zero usable rows, yet `load_bucket_mapping`
returns normally with an empty routable mapping — no error of any kind (the
code defines no `CatalogLoadError`), contradicting the claim that loading
fails rather than ever returning an empty mapping. -/
theorem c3_counterexample :
    load_bucket_mapping
      [{ name := some "Storage", owner := some "", note := some "described, not routable" }] =
      [] := by decide

/-- C3 (amended): on a readable source with zero usable rows (no row with both
a non-empty stripped name and owner), `load_bucket_mapping` raises nothing and
returns the empty routable mapping; only an unreadable source aborts, with the
underlying I/O error rather than a dedicated catalog error. -/
theorem c3_empty_rows_empty_mapping (rows : List Row)
    (h : ∀ r ∈ rows, rowName r = "" ∨ rowOwner r = "") :
    load_bucket_mapping rows = [] :=
  load_foldl_unusable rows [] h

/-- C3 witness: the amended theorem applied to a two-row source with a blank
owner and a blank name. -/
theorem c3_empty_rows_empty_mapping_witness :
    load_bucket_mapping
      [{ name := some "Storage", owner := some " ", note := none },
       { name := some "", owner := some "Owner A", note := none }] = [] :=
  c3_empty_rows_empty_mapping _ (by decide)

/-- C5: for every title containing the registered override keyword
"native datatypes" (case-insensitively, as a substring), owner resolution
returns that keyword's override owner "Zuzana Bednarova", whatever catalog
mapping is in force and whatever bucket the classifier chose — the
topic-derived owner is replaced, and the classification's confidence plays no
part (`resolve_owner` never reads it). -/
theorem c5_override_precedence (bucket_mapping : List (String × String))
    (title bucket : String)
    (h : containsSub (lowerStr title) "native datatypes" = true) :
    resolve_owner bucket_mapping title bucket = some "Zuzana Bednarova" := by
  simp [resolve_owner, FEATURE_OWNER_OVERRIDES, List.find?, h, truthyOpt]

/-- C5 witness: the spec's concrete scenario — a "native datatypes" title with
a catalog that maps the classified bucket elsewhere. -/
theorem c5_override_precedence_witness :
    resolve_owner [("storage", "Owner A")] "Add Native Datatypes support" "Storage" =
      some "Zuzana Bednarova" :=
  c5_override_precedence [("storage", "Owner A")] "Add Native Datatypes support" "Storage"
    (by decide)

/-- C6: an item whose assignee is set is skipped outright: the result dict
records action "skipped" with a reason naming the existing owner, the item
makes no API call at all (no classification request, no mutation) and the
label memo is left untouched — no further per-item computation happens. -/
theorem c6_already_assigned_skipped (cfg : Config) (memo : Option String)
    (issue : Issue) (a : Assignee) (h : issue.assignee = some a) :
    process_one cfg memo issue =
      ({ identifier := issue.identifier, title := issue.title, action := "skipped",
         bucket := none, owner := none, confidence := none,
         reason := some ("Already assigned to " ++ a.name) }, [], memo) := by
  simp [process_one, h]

/-- C6 witness: a concrete already-assigned issue. -/
theorem c6_already_assigned_skipped_witness :
    process_one
      { parse := fun _ => ParseOutcome.failure, modelResponse := fun _ => "",
        bucket_mapping := [("storage", "Owner A")], team_members := [],
        team_id := "T", labelIdFromTracker := "L", dry_run := true }
      none
      { id := "id9", identifier := "PROF-9", title := "Anything",
        description := none, assignee := some { id := "u1", name := "Dana" },
        labels := [] } =
      ({ identifier := "PROF-9", title := "Anything", action := "skipped",
         bucket := none, owner := none, confidence := none,
         reason := some "Already assigned to Dana" }, [], none) :=
  c6_already_assigned_skipped _ none _ { id := "u1", name := "Dana" } rfl

/-- C7: whenever structural parsing of the (fence-stripped) response text
fails, the interpreter returns normally — never an exception — with the whole
raw text as the primary bucket, no secondary bucket, confidence "low" and the
parse-failure rationale; and when the response is not fenced, the
fence-stripping is the identity, so the primary bucket is the entire raw
response. -/
theorem c7_parse_failure_degrades (parse : String → ParseOutcome)
    (response_text : String) (bucket_names : List String)
    (bucket_mapping : List (String × String))
    (h : parse (stripFences response_text) = ParseOutcome.failure) :
    interpret_response parse response_text bucket_names bucket_mapping =
      { primary_bucket := stripFences response_text, secondary_bucket := none,
        confidence := "low", reasoning := "Failed to parse AI response" } ∧
    (startsWithStr response_text "```" = false →
      stripFences response_text = response_text) := by
  refine ⟨by simp [interpret_response, h], fun hs => by simp [stripFences, hs]⟩

/-- C7 witness: the spec's unparsable-text scenario. -/
theorem c7_parse_failure_degrades_witness :
    interpret_response (fun _ => ParseOutcome.failure)
        "Sure, my answer is: Billing" ["billing"] [("billing", "Owner C")] =
      { primary_bucket := stripFences "Sure, my answer is: Billing",
        secondary_bucket := none, confidence := "low",
        reasoning := "Failed to parse AI response" } ∧
    (startsWithStr "Sure, my answer is: Billing" "```" = false →
      stripFences "Sure, my answer is: Billing" = "Sure, my answer is: Billing") :=
  c7_parse_failure_degrades _ _ _ _ rfl

theorem reconcile_confidence_eq_or (m : List (String × String)) (p : String)
    (s : Option String) (c : String) :
    reconcile_confidence m p s c = "high" ∨ reconcile_confidence m p s c = c := by
  simp only [reconcile_confidence]
  split
  · split
    · exact Or.inl rfl
    · exact Or.inr rfl
  · exact Or.inr rfl

/-- The classification interpreted from a parsable response whose confidence
field carries the out-of-enum string "medium". -/
def medium_confidence_example : ClassificationResult :=
  interpret_response
    (fun _ => ParseOutcome.ok
      { primary_bucket := some "UX", secondary_bucket := none,
        confidence := some "medium", reasoning := some "unsure" })
    "raw" ["ux"] [("ux", "Owner B")]

/-- C4 (counterexample): a parsable model output reporting
confidence "medium" yields a ClassificationResult whose confidence is
"medium" — neither of the two enum values — so the interpreter does not
force the confidence into the high/low enum. -/
theorem c4_counterexample :
    medium_confidence_example.confidence = "medium" ∧
    medium_confidence_example.confidence ≠ "high" ∧
    medium_confidence_example.confidence ≠ "low" := by decide

/-- C4 (amended): the interpreter's confidence is one of the two enum values
for every raw output that is unparsable or whose confidence field, when
present, already is one of them: a missing field defaults to "low", a parse
failure yields "low", and reconciliation can only substitute "high" — but a
present out-of-enum confidence string is passed through unvalidated. -/
theorem c4_confidence_enum (parse : String → ParseOutcome) (response_text : String)
    (bucket_names : List String) (bucket_mapping : List (String × String))
    (h : ∀ fields, parse (stripFences response_text) = ParseOutcome.ok fields →
      fields.confidence = none ∨ fields.confidence = some "high" ∨
        fields.confidence = some "low") :
    (interpret_response parse response_text bucket_names bucket_mapping).confidence = "high" ∨
    (interpret_response parse response_text bucket_names bucket_mapping).confidence = "low" := by
  cases hp : parse (stripFences response_text) with
  | failure => right; simp [interpret_response, hp]
  | ok fields =>
    have henum := h fields hp
    have key : ∀ c : String, c = "low" ∨ c = "high" →
        (reconcile_confidence bucket_mapping
            (validate_primary bucket_names (fields.primary_bucket.getD "UX"))
            fields.secondary_bucket c = "high" ∨
          reconcile_confidence bucket_mapping
            (validate_primary bucket_names (fields.primary_bucket.getD "UX"))
            fields.secondary_bucket c = "low") := by
      intro c hc
      rcases reconcile_confidence_eq_or bucket_mapping
          (validate_primary bucket_names (fields.primary_bucket.getD "UX"))
          fields.secondary_bucket c with h1 | h1
      · exact Or.inl h1
      · rcases hc with rfl | rfl
        · exact Or.inr h1
        · exact Or.inl h1
    rcases henum with h0 | h0 | h0
    · simp only [interpret_response, hp, h0, Option.getD_none]
      exact key "low" (Or.inl rfl)
    · simp only [interpret_response, hp, h0, Option.getD_some]
      exact key "high" (Or.inr rfl)
    · simp only [interpret_response, hp, h0, Option.getD_some]
      exact key "low" (Or.inl rfl)

/-- C4 witness: the amended theorem applied to a parsable response reporting
confidence "low" with no secondary bucket. -/
theorem c4_confidence_enum_witness :
    (interpret_response
        (fun _ => ParseOutcome.ok
          { primary_bucket := some "ux", secondary_bucket := none,
            confidence := some "low", reasoning := some "r" })
        "raw" ["ux"] [("ux", "Owner B")]).confidence = "high" ∨
    (interpret_response
        (fun _ => ParseOutcome.ok
          { primary_bucket := some "ux", secondary_bucket := none,
            confidence := some "low", reasoning := some "r" })
        "raw" ["ux"] [("ux", "Owner B")]).confidence = "low" :=
  c4_confidence_enum _ _ _ _ (by intro fields hf; cases hf; right; right; rfl)

/-- The classification interpreted from a response whose primary and secondary
buckets share an owner but whose reported confidence is "medium". -/
def same_owner_example : ClassificationResult :=
  interpret_response
    (fun _ => ParseOutcome.ok
      { primary_bucket := some "Billing", secondary_bucket := some "Pricing",
        confidence := some "medium", reasoning := some "torn" })
    "raw" ["billing", "pricing"] [("billing", "Owner C"), ("pricing", "Owner C")]

/-- C1 (counterexample): a classification with a secondary topic present whose
primary and secondary topics both resolve via the catalog to the same owner
"Owner C", yet whose model-reported confidence is the out-of-enum string
"medium": reconciliation leaves it "medium", not "high" — so the rule does
not fire regardless of the reported confidence, only when it is "low". -/
theorem c1_counterexample :
    same_owner_example.secondary_bucket = some "Pricing" ∧
    dictGet [("billing", "Owner C"), ("pricing", "Owner C")]
        (lowerStr same_owner_example.primary_bucket) = some "Owner C" ∧
    dictGet [("billing", "Owner C"), ("pricing", "Owner C")]
        (lowerStr "Pricing") = some "Owner C" ∧
    same_owner_example.confidence ≠ "high" := by decide

/-- C1 (amended): when a (truthy) secondary topic is present and the validated
primary and the secondary topic both resolve via the catalog to the same
non-empty owner, the interpreter yields confidence "high" whenever the
model-reported confidence lies in the enum — absent or "low" is upgraded,
"high" is kept; a reported confidence outside the two enum values is passed
through unchanged instead. -/
theorem c1_same_owner_yields_high (parse : String → ParseOutcome)
    (response_text : String) (bucket_names : List String)
    (bucket_mapping : List (String × String)) (fields : RawFields) (owner : String)
    (hp : parse (stripFences response_text) = ParseOutcome.ok fields)
    (henum : fields.confidence = none ∨ fields.confidence = some "low" ∨
      fields.confidence = some "high")
    (hsec : truthyOpt fields.secondary_bucket = true)
    (hpo : dictGet bucket_mapping
        (lowerStr (validate_primary bucket_names (fields.primary_bucket.getD "UX"))) =
      some owner)
    (hso : dictGet bucket_mapping (lowerStr (fields.secondary_bucket.getD "")) = some owner)
    (howner : owner ≠ "") :
    (interpret_response parse response_text bucket_names bucket_mapping).confidence =
      "high" := by
  have hbne : (owner != "") = true := by simpa using howner
  rcases henum with h0 | h0 | h0 <;>
    simp [interpret_response, hp, h0, reconcile_confidence, hsec, hpo, hso, hbne]

/-- C1 witness: the spec's concrete scenario — confidence "low",
primary "Billing", secondary "Pricing", both owned by "Owner C" — is upgraded
to "high". -/
theorem c1_same_owner_yields_high_witness :
    (interpret_response
        (fun _ => ParseOutcome.ok
          { primary_bucket := some "Billing", secondary_bucket := some "Pricing",
            confidence := some "low", reasoning := some "torn" })
        "raw" ["billing", "pricing"]
        [("billing", "Owner C"), ("pricing", "Owner C")]).confidence = "high" :=
  c1_same_owner_yields_high _ _ _ _ _ "Owner C" rfl (Or.inr (Or.inl rfl))
    (by decide) (by decide) (by decide) (by decide)

theorem dictInsert_keys (d : List (String × String)) (k v x : String)
    (hx : x ∈ (dictInsert d k v).map Prod.fst) :
    x ∈ d.map Prod.fst ∨ x = k := by
  simp only [dictInsert] at hx
  split at hx
  · simp only [List.map_map, List.mem_map, Function.comp] at hx
    obtain ⟨p, hp, hpx⟩ := hx
    by_cases hpk : (p.1 == k) = true
    · right
      rw [if_pos hpk] at hpx
      exact hpx.symm
    · left
      rw [if_neg hpk] at hpx
      exact hpx ▸ List.mem_map_of_mem Prod.fst hp
  · simp only [List.map_append, List.mem_append, List.map_cons, List.map_nil,
      List.mem_cons, List.not_mem_nil, or_false] at hx
    exact hx

theorem loadStep_keys (m : List (String × String)) (r : Row) (x : String)
    (hx : x ∈ (loadStep m r).map Prod.fst) :
    x ∈ m.map Prod.fst ∨ x = lowerStr (rowName r) := by
  simp only [loadStep] at hx
  split at hx
  · exact dictInsert_keys m (lowerStr (rowName r)) (rowOwner r) x hx
  · exact Or.inl hx

theorem load_foldl_keys (rows : List Row) :
    ∀ (m : List (String × String)) (x : String),
      x ∈ (rows.foldl loadStep m).map Prod.fst →
      x ∈ m.map Prod.fst ∨ ∃ r ∈ rows, x = lowerStr (rowName r) := by
  induction rows with
  | nil => intro m x hx; exact Or.inl hx
  | cons r rest ih =>
    intro m x hx
    rw [List.foldl_cons] at hx
    rcases ih (loadStep m r) x hx with h | ⟨r', hr', hx'⟩
    · rcases loadStep_keys m r x h with h' | h'
      · exact Or.inl h'
      · exact Or.inr ⟨r, List.mem_cons_self r rest, h'⟩
    · exact Or.inr ⟨r', List.mem_cons_of_mem r hr', hx'⟩

theorem load_bucket_mapping_keys (rows : List Row) (x : String)
    (hx : x ∈ (load_bucket_mapping rows).map Prod.fst) :
    ∃ r ∈ rows, x = lowerStr (rowName r) := by
  rcases load_foldl_keys rows [] x hx with h | h
  · simp at h
  · exact h

theorem validate_primary_mem (bucket_names : List String) (primary : String)
    (h : ∃ n ∈ bucket_names, lowerStr n = lowerStr primary) :
    validate_primary bucket_names primary ∈ bucket_names := by
  unfold validate_primary
  cases hf : bucket_names.find? (fun name => lowerStr name == lowerStr primary) with
  | none =>
    obtain ⟨n, hn, he⟩ := h
    rw [List.find?_eq_none] at hf
    exact absurd (by simpa using he) (by simpa using hf n hn)
  | some n => exact List.mem_of_find?_eq_some hf

/-- The classification interpreted against a catalog loaded from a source
whose row is named "Storage" (capital S), for a model response naming
"STORAGE". -/
def cased_catalog_example : ClassificationResult :=
  interpret_response
    (fun _ => ParseOutcome.ok
      { primary_bucket := some "STORAGE", secondary_bucket := none,
        confidence := some "high", reasoning := some "clear" })
    "raw"
    (bucket_names_of (load_bucket_mapping
      [{ name := some "Storage", owner := some "Owner A", note := none }]))
    (load_bucket_mapping
      [{ name := some "Storage", owner := some "Owner A", note := none }])

/-- C2 (counterexample): the catalog source spells its entry "Storage", so the
"original canonically-cased name preserved from the loaded source" is
"Storage"; yet interpreting a valid response naming "STORAGE" rewrites the
primary topic to "storage" — the case-folded key under which the catalog
stores entries — because `load_bucket_mapping` lowercases names at load time
and `process_issues` validates against the mapping's keys (line 504), not the
source casing. -/
theorem c2_counterexample :
    cased_catalog_example.primary_bucket = "storage" ∧
    cased_catalog_example.primary_bucket ≠ "Storage" ∧
    rowName { name := some "Storage", owner := some "Owner A", note := none } =
      "Storage" := by decide

/-- C2 (amended): for a catalog loaded from the source, whenever the model's
primary topic matches a catalog entry case-insensitively, interpretation
rewrites it to the stored entry name exactly — and that stored name is the
case-folded (lowercased) form of a source row's stripped name, not the
source's original casing. -/
theorem c2_rewritten_to_case_folded_key (rows : List Row)
    (parse : String → ParseOutcome) (response_text : String) (fields : RawFields)
    (hp : parse (stripFences response_text) = ParseOutcome.ok fields)
    (hmatch : ∃ n ∈ bucket_names_of (load_bucket_mapping rows),
      lowerStr n = lowerStr (fields.primary_bucket.getD "UX")) :
    (interpret_response parse response_text
        (bucket_names_of (load_bucket_mapping rows))
        (load_bucket_mapping rows)).primary_bucket ∈
      bucket_names_of (load_bucket_mapping rows) ∧
    ∃ r ∈ rows,
      (interpret_response parse response_text
          (bucket_names_of (load_bucket_mapping rows))
          (load_bucket_mapping rows)).primary_bucket = lowerStr (rowName r) := by
  have hmem := validate_primary_mem (bucket_names_of (load_bucket_mapping rows))
    (fields.primary_bucket.getD "UX") hmatch
  have hproj : (interpret_response parse response_text
      (bucket_names_of (load_bucket_mapping rows))
      (load_bucket_mapping rows)).primary_bucket =
      validate_primary (bucket_names_of (load_bucket_mapping rows))
        (fields.primary_bucket.getD "UX") := by
    simp only [interpret_response, hp]
  refine ⟨hproj ▸ hmem, ?_⟩
  have hkey : validate_primary (bucket_names_of (load_bucket_mapping rows))
      (fields.primary_bucket.getD "UX") ∈ (load_bucket_mapping rows).map Prod.fst := by
    have := hmem
    simpa [bucket_names_of, List.mem_dedup] using this
  obtain ⟨r, hr, he⟩ := load_bucket_mapping_keys rows _ hkey
  exact ⟨r, hr, hproj ▸ he⟩

/-- C2 witness: the amended theorem applied to the "Storage"-row source and a
model response naming "STORAGE". -/
theorem c2_rewritten_to_case_folded_key_witness :
    (interpret_response
        (fun _ => ParseOutcome.ok
          { primary_bucket := some "STORAGE", secondary_bucket := none,
            confidence := some "high", reasoning := some "clear" })
        "raw"
        (bucket_names_of (load_bucket_mapping
          [{ name := some "Storage", owner := some "Owner A", note := none }]))
        (load_bucket_mapping
          [{ name := some "Storage", owner := some "Owner A", note := none }])).primary_bucket ∈
      bucket_names_of (load_bucket_mapping
        [{ name := some "Storage", owner := some "Owner A", note := none }]) ∧
    ∃ r ∈ [{ name := some "Storage", owner := some "Owner A", note := (none : Option String) }],
      (interpret_response
          (fun _ => ParseOutcome.ok
            { primary_bucket := some "STORAGE", secondary_bucket := none,
              confidence := some "high", reasoning := some "clear" })
          "raw"
          (bucket_names_of (load_bucket_mapping
            [{ name := some "Storage", owner := some "Owner A", note := none }]))
          (load_bucket_mapping
            [{ name := some "Storage", owner := some "Owner A", note := none }])).primary_bucket =
        lowerStr (rowName r) :=
  c2_rewritten_to_case_folded_key _ _ _ _ rfl ⟨"storage", by decide, by decide⟩

theorem labelStep_memo_some (cfg : Config) (l : String) (b : Bool) :
    labelStep cfg (some l) b = (if b then some [l] else none, [], some l) := by
  cases b <;> simp [labelStep]

theorem labelStep_memo_none (cfg : Config) (b : Bool) :
    labelStep cfg none b =
      if b then
        (some [cfg.labelIdFromTracker],
         [Effect.getOrCreateLabel cfg.team_id NEEDS_REVIEW_LABEL],
         some cfg.labelIdFromTracker)
      else (none, [], none) := by
  cases b <;> simp [labelStep]

theorem process_one_memo_some (cfg : Config) (l : String) (issue : Issue) :
    (process_one cfg (some l) issue).2.2 = some l ∧
    (process_one cfg (some l) issue).2.1.countP isLabelEffect = 0 := by
  unfold process_one
  cases issue.assignee with
  | some a => simp
  | none =>
    simp only
    split
    · simp [List.countP_cons, isLabelEffect]
    · split
      · simp [List.countP_cons, isLabelEffect]
      · split
        · simp [List.countP_cons, isLabelEffect]
        · rw [labelStep_memo_some]
          constructor
          · rfl
          · simp [List.countP_cons, isLabelEffect]

theorem process_one_memo_none (cfg : Config) (issue : Issue) :
    ((process_one cfg none issue).2.1.countP isLabelEffect = 0 ∧
      (process_one cfg none issue).2.2 = none) ∨
    ((process_one cfg none issue).2.1.countP isLabelEffect = 1 ∧
      (process_one cfg none issue).2.2 = some cfg.labelIdFromTracker) := by
  unfold process_one
  cases issue.assignee with
  | some a => left; simp
  | none =>
    simp only
    split
    · left; simp [List.countP_cons, isLabelEffect]
    · split
      · left; simp [List.countP_cons, isLabelEffect]
      · split
        · left; simp [List.countP_cons, isLabelEffect]
        · rw [labelStep_memo_none]
          split
          · right
            constructor
            · simp [List.countP_cons, List.countP_append, isLabelEffect]
            · rfl
          · left
            constructor
            · simp [List.countP_cons, isLabelEffect]
            · rfl

theorem runIssues_label_count_memo_some (cfg : Config) (issues : List Issue) :
    ∀ l : String, ((runIssues cfg issues (some l)).2.countP isLabelEffect) = 0 := by
  induction issues with
  | nil => intro l; rfl
  | cons i rest ih =>
    intro l
    obtain ⟨hm, hc⟩ := process_one_memo_some cfg l i
    simp only [runIssues, List.countP_append, hm, hc, ih l]

/-- C9: within a single run, the needs-review label identifier is fetched or
created at most once: the effect trace of `process_issues` contains at most
one `get_or_create_label` call, because the first successful lookup is
memoized in `needs_review_label_id` and every later low-confidence assignment
reuses it. -/
theorem c9_label_fetched_at_most_once (cfg : Config) (issues : List Issue) :
    (process_issues cfg issues).2.countP isLabelEffect ≤ 1 := by
  unfold process_issues
  induction issues with
  | nil => simp [runIssues]
  | cons i rest ih =>
    simp only [runIssues, List.countP_append]
    rcases process_one_memo_none cfg i with ⟨hc, hm⟩ | ⟨hc, hm⟩
    · rw [hc, hm]
      simpa using ih
    · rw [hc, hm, runIssues_label_count_memo_some cfg rest]

theorem process_one_dry_vs_exec (cfg : Config) (memoD memoE : Option String)
    (issue : Issue) :
    (process_one { cfg with dry_run := true } memoD issue).1 =
      toWouldAssign (process_one { cfg with dry_run := false } memoE issue).1 ∧
    (process_one { cfg with dry_run := true } memoD issue).2.1.countP isMutationEffect = 0 ∧
    (process_one { cfg with dry_run := true } memoD issue).2.2 = memoD := by
  unfold process_one
  cases issue.assignee with
  | some a => simp [toWouldAssign]
  | none =>
    simp only
    split
    · simp [toWouldAssign, List.countP_cons, isMutationEffect]
    · split
      · simp [toWouldAssign, List.countP_cons, isMutationEffect]
      · simp only [if_pos rfl, if_neg (Bool.false_ne_true)]
        simp [toWouldAssign, List.countP_cons, isMutationEffect]

/-- C10: in dry-run mode (the default), a run performs no tracker mutation at
all — the effect trace holds no issue assignment, no comment creation and no
label fetch-or-create — and its result dicts are exactly those of the
corresponding execute run with every "assigned" action replaced by
"would_assign", carrying the same identifier, title, bucket, owner and
confidence. -/
theorem c10_dry_run_no_mutation (cfg : Config) (issues : List Issue) :
    (process_issues { cfg with dry_run := true } issues).2.countP isMutationEffect = 0 ∧
    (process_issues { cfg with dry_run := true } issues).1 =
      ((process_issues { cfg with dry_run := false } issues).1).map toWouldAssign := by
  unfold process_issues
  have aux : ∀ (issues : List Issue) (memoD memoE : Option String),
      (runIssues { cfg with dry_run := true } issues memoD).2.countP isMutationEffect = 0 ∧
      (runIssues { cfg with dry_run := true } issues memoD).1 =
        ((runIssues { cfg with dry_run := false } issues memoE).1).map toWouldAssign := by
    intro issues
    induction issues with
    | nil => intro memoD memoE; exact ⟨rfl, rfl⟩
    | cons i rest ih =>
      intro memoD memoE
      obtain ⟨hrec, hcnt, hmemo⟩ := process_one_dry_vs_exec cfg memoD memoE i
      constructor
      · simp only [runIssues, List.countP_append, hcnt, hmemo, Nat.zero_add]
        exact (ih memoD (process_one { cfg with dry_run := false } memoE i).2.2).1
      · simp only [runIssues, List.map_cons, hmemo]
        exact List.cons_eq_cons.mpr
          ⟨hrec, (ih memoD (process_one { cfg with dry_run := false } memoE i).2.2).2⟩
  exact aux issues none none

/-- A model output whose confidence string itself contains a line that mimics
the alternative-bucket label. -/
def forged_conf_fields : RawFields :=
  { primary_bucket := some "storage", secondary_bucket := none,
    confidence := some "high\n- **Alternative bucket:** Pricing",
    reasoning := some "ok" }

/-- A model output with confidence "high" and a genuine secondary bucket
"Pricing". -/
def genuine_alt_fields : RawFields :=
  { primary_bucket := some "storage", secondary_bucket := some "Pricing",
    confidence := some "high", reasoning := some "ok" }

/-- An execute-mode run configuration over a one-entry catalog and a
one-member roster, classifying every issue as the given parsed output. -/
def auditCfg (fields : RawFields) : Config :=
  { parse := fun _ => ParseOutcome.ok fields, modelResponse := fun _ => "raw",
    bucket_mapping := [("storage", "Ann")],
    team_members := [{ id := "m1", name := "Ann", email := "ann@example.com" }],
    team_id := "T", labelIdFromTracker := "L", dry_run := false }

/-- An unassigned issue. -/
def auditIssue : Issue :=
  { id := "id1", identifier := "PROF-1", title := "Slow dashboards",
    description := none, assignee := none, labels := [] }

/-- C8 (counterexample): two runs over the same unassigned issue, both ending
in an assigned decision, whose classifications differ (one has the forged
confidence string and no secondary topic, the other confidence "high" and
secondary "Pricing"), yet whose effect traces — the posted audit comment
included — are byte-for-byte identical: no parser can recover the confidence
and the secondary topic from the audit text unambiguously, because a field
containing a newline forges the fixed labels. -/
theorem c8_counterexample :
    (process_issues (auditCfg forged_conf_fields) [auditIssue]).2 =
      (process_issues (auditCfg genuine_alt_fields) [auditIssue]).2 ∧
    (process_issues (auditCfg forged_conf_fields) [auditIssue]).1.map
        (fun r => r.action) = ["assigned"] ∧
    (process_issues (auditCfg genuine_alt_fields) [auditIssue]).1.map
        (fun r => r.action) = ["assigned"] ∧
    (process_issues (auditCfg forged_conf_fields) [auditIssue]).1.map
        (fun r => r.confidence) ≠
      (process_issues (auditCfg genuine_alt_fields) [auditIssue]).1.map
        (fun r => r.confidence) := by decide

theorem splitOnNl_ne_nil (l : List Char) : splitOnNl l ≠ [] := by
  cases l with
  | nil => simp [splitOnNl]
  | cons c cs =>
    simp only [splitOnNl]
    cases h : splitOnNl cs with
    | nil => simp
    | cons a as =>
      split
      · simp
      · split <;> simp

theorem splitOnNl_cons_nl (ys : List Char) :
    splitOnNl ('\n' :: ys) = [] :: splitOnNl ys := by
  simp only [splitOnNl]
  cases h : splitOnNl ys with
  | nil => exact absurd h (splitOnNl_ne_nil ys)
  | cons a as => simp

theorem splitOnNl_no_nl (l : List Char) (h : '\n' ∉ l) : splitOnNl l = [l] := by
  induction l with
  | nil => rfl
  | cons c cs ih =>
    have hc : ¬ c = '\n' := fun e => h (by simp [e])
    have hcs : '\n' ∉ cs := fun m => h (List.mem_cons_of_mem _ m)
    simp only [splitOnNl, ih hcs]
    rw [if_neg hc]

theorem splitOnNl_append (xs ys : List Char) (h : '\n' ∉ xs) :
    splitOnNl (xs ++ '\n' :: ys) = xs :: splitOnNl ys := by
  induction xs with
  | nil => simpa using splitOnNl_cons_nl ys
  | cons x xs ih =>
    have hx : ¬ x = '\n' := fun e => h (by simp [e])
    have hxs : '\n' ∉ xs := fun m => h (List.mem_cons_of_mem _ m)
    simp only [List.cons_append, splitOnNl, List.append_eq]
    rw [ih hxs]
    simp [hx]

theorem stripPfx_append (p x : List Char) : stripPfx p (p ++ x) = some x := by
  induction p with
  | nil => rfl
  | cons a ps ih => simp [stripPfx, ih]

theorem strMk_data (s : String) : String.mk s.data = s := rfl

theorem nl_not_mem_append {l₁ l₂ : List Char} (h₁ : '\n' ∉ l₁) (h₂ : '\n' ∉ l₂) :
    '\n' ∉ l₁ ++ l₂ := by
  simp only [List.mem_append, not_or]
  exact ⟨h₁, h₂⟩

/-- C8 (amended): for every assigned decision the audit text is the
fixed-labels block — header, blank line, bucket, assignee, confidence, the
alternative bucket when (truthily) present, reasoning, in that order — and,
provided the interpolated fields contain no newline (and a present secondary
topic is non-empty), a line-based parser recovers topic, owner, confidence,
secondary topic and rationale exactly; fields containing newlines can forge
the labels and make recovery ambiguous. -/
theorem c8_round_trip (bucket member_name confidence reasoning : String)
    (secondary : Option String)
    (hb : '\n' ∉ bucket.data) (ho : '\n' ∉ member_name.data)
    (hc : '\n' ∉ confidence.data) (hr : '\n' ∉ reasoning.data)
    (hs : ∀ s, secondary = some s → s ≠ "" ∧ '\n' ∉ s.data) :
    parse_audit (comment_body bucket member_name
      { primary_bucket := bucket, secondary_bucket := secondary,
        confidence := confidence, reasoning := reasoning }) =
      some (bucket, member_name, confidence, secondary, reasoning) := by
  cases secondary with
  | none =>
    have hdata : (comment_body bucket member_name
        { primary_bucket := bucket, secondary_bucket := none,
          confidence := confidence, reasoning := reasoning }).data =
        "**Auto-triage classification**".data ++ '\n' ::
          '\n' :: ("- **Bucket:** ".data ++ bucket.data ++ '\n' ::
            ("- **Assigned to:** ".data ++ member_name.data ++ '\n' ::
              ("- **Confidence:** ".data ++ confidence.data ++ '\n' ::
                ("- **Reasoning:** ".data ++ reasoning.data)))) := by
      have h1 : ("\n" : String).data = ['\n'] := rfl
      have h2 : ("" : String).data = [] := rfl
      simp [comment_body, comment_parts, truthyOpt, String.intercalate,
        String.intercalate.go, String.data_append, h1, h2, List.append_assoc]
    unfold parse_audit
    rw [hdata]
    rw [splitOnNl_append _ _ (by decide), splitOnNl_cons_nl]
    rw [splitOnNl_append _ _ (nl_not_mem_append (by decide) hb)]
    rw [splitOnNl_append _ _ (nl_not_mem_append (by decide) ho)]
    rw [splitOnNl_append _ _ (nl_not_mem_append (by decide) hc)]
    rw [splitOnNl_no_nl _ (nl_not_mem_append (by decide) hr)]
    simp only [parse_audit_lines, stripPfx_append]
    simp [strMk_data]
  | some s =>
    obtain ⟨hne, hsd⟩ := hs s rfl
    have htr : truthyOpt (some s) = true := by
      simp only [truthyOpt, Option.getD_some, bne_iff_ne, ne_eq]
      exact hne
    have hdata : (comment_body bucket member_name
        { primary_bucket := bucket, secondary_bucket := some s,
          confidence := confidence, reasoning := reasoning }).data =
        "**Auto-triage classification**".data ++ '\n' ::
          '\n' :: ("- **Bucket:** ".data ++ bucket.data ++ '\n' ::
            ("- **Assigned to:** ".data ++ member_name.data ++ '\n' ::
              ("- **Confidence:** ".data ++ confidence.data ++ '\n' ::
                ("- **Alternative bucket:** ".data ++ s.data ++ '\n' ::
                  ("- **Reasoning:** ".data ++ reasoning.data))))) := by
      have h1 : ("\n" : String).data = ['\n'] := rfl
      have h2 : ("" : String).data = [] := rfl
      simp [comment_body, comment_parts, htr, String.intercalate,
        String.intercalate.go, String.data_append, h1, h2, List.append_assoc]
    unfold parse_audit
    rw [hdata]
    rw [splitOnNl_append _ _ (by decide), splitOnNl_cons_nl]
    rw [splitOnNl_append _ _ (nl_not_mem_append (by decide) hb)]
    rw [splitOnNl_append _ _ (nl_not_mem_append (by decide) ho)]
    rw [splitOnNl_append _ _ (nl_not_mem_append (by decide) hc)]
    rw [splitOnNl_append _ _ (nl_not_mem_append (by decide) hsd)]
    rw [splitOnNl_no_nl _ (nl_not_mem_append (by decide) hr)]
    simp only [parse_audit_lines, stripPfx_append]
    simp [strMk_data]

/-- C8 witness: the amended round trip on a concrete assigned decision with a
present secondary topic. -/
theorem c8_round_trip_witness :
    parse_audit (comment_body "storage" "Ann"
      { primary_bucket := "storage", secondary_bucket := some "Pricing",
        confidence := "low", reasoning := "two plausible buckets" }) =
      some ("storage", "Ann", "low", some "Pricing", "two plausible buckets") :=
  c8_round_trip "storage" "Ann" "low" "two plausible buckets" (some "Pricing")
    (by decide) (by decide) (by decide) (by decide)
    (by intro s hs; cases hs; exact ⟨by decide, by decide⟩)

end Triage
